import Mathlib

/-!
Verification of the video-game-sales dashboard (src/projeto.py).

The development shallowly embeds the data-loading / normalization pipeline
(`load_data`), the filter derivation (`df_filtered`), and the derived
aggregation views (group-by sums, market share, nlargest peak years,
treemap melt) of the dashboard.  Pandas DataFrames are modelled as Lean
lists of records; pandas floating-point values are modelled as `Rat`
(exact rationals); pandas `NaN` cells are modelled as `Option` / `none`.
-/

namespace Projeto

/-- One normalized record of the dataset (a row of the DataFrame returned by
`load_data`): columns `Nome, Console, Ano, Genero, Editora` and the five
numeric sales columns (floating-point in the source, modelled as `Rat`). -/
structure Row where
  nome : String
  console : String
  ano : Int
  genero : String
  editora : String
  vendas_na : Rat
  vendas_eu : Rat
  vendas_jp : Rat
  vendas_outros : Rat
  vendas_globais : Rat
  deriving Repr, DecidableEq

/-- One raw CSV row as read by `pd.read_csv`, restricted to the cells of the
ten required columns.  `Year` is parsed numerically by the CSV reader
(`none` models a `NaN` cell); `Publisher` may be missing (`none` models
`NaN`); the five sales cells are kept as raw text, since `load_data`
re-reads them as text (`astype(str)`) before coercing. -/
structure RawRow where
  nome : String
  console : String
  ano : Option Int
  genero : String
  editora : Option String
  vendas_na : String
  vendas_eu : String
  vendas_jp : String
  vendas_outros : String
  vendas_globais : String
  deriving Repr, DecidableEq

/-- The fixed genre translation table `genre_translation_map` of the source
(12 known categories). -/
def genre_translation_map : List (String × String) :=
  [("Action", "Ação"), ("Sports", "Esportes"), ("Platform", "Plataforma"),
   ("Racing", "Corrida"), ("Role-Playing", "RPG"), ("Misc", "Diversos"),
   ("Simulation", "Simulação"), ("Shooter", "Tiro"),
   ("Adventure", "Aventura"), ("Fighting", "Luta"),
   ("Strategy", "Estratégia"), ("Puzzle", "Quebra-cabeça")]

/-- Genre remapping step (df.Genero.replace applied with
genre_translation_map): labels in the table are remapped, labels outside
the table pass through unchanged. -/
def translateGenre (g : String) : String :=
  match genre_translation_map.find? (fun p => p.1 == g) with
  | some p => p.2
  | none => g

/-- Convert a list of decimal digit characters to a natural number;
`none` when some character is not a digit. -/
def digitsToNat (cs : List Char) : Option Nat :=
  cs.foldl (fun acc c =>
    acc.bind fun n => if c.isDigit then some (n * 10 + (c.toNat - 48)) else none)
    (some 0)

/-- Parse an unsigned decimal numeral (an optional single point separating
integer and fractional digit groups, at least one digit in total) to a
pair (numerator, power-of-ten denominator), so that the numeral denotes
numerator / denominator.  Models the behaviour of pandas to_numeric on
finite decimal numerals; any other text fails (`none`), which to_numeric
with errors set to coerce turns into `NaN`. -/
def parseUnsignedParts (cs : List Char) : Option (Nat × Nat) :=
  let p := cs.span (fun c => c != '.')
  match p.2 with
  | [] =>
      if p.1.isEmpty then none
      else (digitsToNat p.1).map (fun n => (n, 1))
  | _ :: frac =>
      if frac.contains '.' then none
      else if p.1.isEmpty && frac.isEmpty then none
      else (digitsToNat p.1).bind fun n =>
        (digitsToNat frac).map fun f =>
          (n * 10 ^ frac.length + f, 10 ^ frac.length)

/-- Remove leading and trailing whitespace (pandas to_numeric, like the
Python float constructor, ignores surrounding whitespace). -/
def trimChars (cs : List Char) : List Char :=
  ((cs.dropWhile Char.isWhitespace).reverse.dropWhile Char.isWhitespace).reverse

/-- Parse a signed decimal numeral (surrounding whitespace trimmed,
optional sign) to an exact rational; `none` models coercion failure
(`NaN`). -/
def parseDecimalChars (cs : List Char) : Option Rat :=
  match trimChars cs with
  | '-' :: rest =>
      (parseUnsignedParts rest).map fun p => Rat.divInt (-(p.1 : Int)) (p.2 : Int)
  | '+' :: rest =>
      (parseUnsignedParts rest).map fun p => Rat.divInt (p.1 : Int) (p.2 : Int)
  | t => (parseUnsignedParts t).map fun p => Rat.divInt (p.1 : Int) (p.2 : Int)

/-- The per-cell coercion applied to each of the five sales columns in
`load_data`: astype(str) then str.replace of comma by point (regex=False,
so every comma is replaced) then pandas to_numeric with errors set to
coerce — treat the cell as text, replace every comma by a point, convert
to a number, `none` (`NaN`) on failure. -/
def parseSale (s : String) : Option Rat :=
  parseDecimalChars (s.data.map fun c => if c == ',' then '.' else c)

/-- Row-level normalization of `load_data` after the rename: dropna on the
Ano and Editora columns, astype(int) on Ano, coercion of the five sales
columns, dropna on the five numerical columns, and the genre remapping.
A result of `none` means the row is dropped. -/
def normalizeRow (r : RawRow) : Option Row := do
  let a ← r.ano
  let e ← r.editora
  let na ← parseSale r.vendas_na
  let eu ← parseSale r.vendas_eu
  let jp ← parseSale r.vendas_jp
  let outros ← parseSale r.vendas_outros
  let globais ← parseSale r.vendas_globais
  pure { nome := r.nome, console := r.console, ano := a,
         genero := translateGenre r.genero, editora := e,
         vendas_na := na, vendas_eu := eu, vendas_jp := jp,
         vendas_outros := outros, vendas_globais := globais }

/-- The whole-table normalization: each raw row is kept (normalized) or
dropped according to `normalizeRow`. -/
def normalizeRows (rs : List RawRow) : List Row :=
  rs.filterMap normalizeRow

/-! ### The Dataset Loader (load_data) -/

/-- A raw table as produced by pd.read_csv after the header strip: the
list of column names of the CSV header, and the data rows restricted to
the cells of the ten expected columns (cells of further columns such as
Rank are never read by `load_data`; when an expected column is absent the
rename step fails before any cell is read). -/
structure RawTable where
  cols : List String
  rows : List RawRow
  deriving Repr, DecidableEq

/-- The rename map passed to df.rename in `load_data` (external source
column name, internal canonical name). -/
def renameMap : List (String × String) :=
  [("Name", "Nome"), ("Platform", "Console"), ("Year", "Ano"),
   ("Genre", "Genero"), ("Publisher", "Editora"),
   ("NA_Sales", "vendas_na"), ("EU_Sales", "vendas_eu"),
   ("JP_Sales", "vendas_jp"), ("Other_Sales", "vendas_outros"),
   ("Global_Sales", "vendas_globais")]

/-- The list of columns required to be present after the rename
(required_cols_after_rename in the source). -/
def required_cols_after_rename : List String :=
  ["Ano", "Editora", "Genero", "Console", "vendas_na", "vendas_eu",
   "vendas_jp", "vendas_outros", "vendas_globais", "Nome"]

/-- Pandas rename with errors set to raise: raises a KeyError (modelled by
`Except.error`) as soon as some key of the rename map is absent from the
columns of the input; otherwise returns the fully renamed column list.
No partially-renamed table is ever produced. -/
def renameColumns (cols : List String) : Except String (List String) :=
  match renameMap.find? (fun p => !cols.contains p.1) with
  | some p => Except.error p.1
  | none => Except.ok (cols.map (fun c =>
      match renameMap.find? (fun p => p.1 == c) with
      | some p => p.2
      | none => c))

/-- The possible outcomes of the remote fetch / CSV read performed at the
top of `load_data` (kagglehub download plus pd.read_csv), as distinguished
by the except clauses of the source: a successfully parsed table, a
missing csv file (FileNotFoundError), a Kaggle authentication failure, a
network or HTTP failure, or any other unexpected error. -/
inductive FetchOutcome where
  | success (raw : RawTable)
  | fileNotFound
  | authFailure
  | httpFailure
  | otherFailure
  deriving Repr, DecidableEq

/-- What `load_data` hands back to the page: either a returned DataFrame
(possibly empty), or `halted` when the except branch calls st.stop and
the script never resumes. -/
inductive LoadOutcome where
  | returned (rows : List Row)
  | halted
  deriving Repr, DecidableEq

/-- The full result of a `load_data` call: the user-visible st.error
diagnostics that were emitted, and the outcome. -/
structure LoadResult where
  errors : List String
  outcome : LoadOutcome
  deriving Repr, DecidableEq

/-- The Dataset Loader `load_data` (src/projeto.py lines 42 to 94), as a
function of the fetch outcome: on success, rename the columns (KeyError
when a rename-map key is missing), check the required columns, and
normalize the rows; every except branch emits an st.error diagnostic, and
every except branch except FileNotFoundError (which calls st.stop)
returns an empty DataFrame. -/
def load_data (f : FetchOutcome) : LoadResult :=
  match f with
  | .success raw =>
      match renameColumns raw.cols with
      | .error c =>
          { errors := ["Erro de coluna apos o download ou renomeacao: " ++ c],
            outcome := .returned [] }
      | .ok renamedCols =>
          match required_cols_after_rename.filter (fun c => !renamedCols.contains c) with
          | [] => { errors := [], outcome := .returned (normalizeRows raw.rows) }
          | missing =>
              { errors := ["Erro de coluna apos o download ou renomeacao: faltando " ++
                  String.intercalate ", " missing],
                outcome := .returned [] }
  | .fileNotFound =>
      { errors := ["Erro: o arquivo vgsales.csv nao foi encontrado dentro do dataset baixado."],
        outcome := .halted }
  | .authFailure =>
      { errors := ["Erro de autenticacao do Kaggle."],
        outcome := .returned [] }
  | .httpFailure =>
      { errors := ["Erro ao baixar o dataset do Kaggle."],
        outcome := .returned [] }
  | .otherFailure =>
      { errors := ["Ocorreu um erro inesperado ao carregar ou processar os dados."],
        outcome := .returned [] }

/-- A fetch outcome is a loader failure mode when it is not a success, or
when it is a success whose table is missing one of the required source
columns (the failure modes enumerated by the spec). -/
def FetchOutcome.isFailure (f : FetchOutcome) : Bool :=
  match f with
  | .success raw => renameMap.any (fun p => !raw.cols.contains p.1)
  | _ => true

/-! ### The Filter State Controller -/

/-- The filter state held in st.session_state: the selected year range
(the selected_years slider value, mirrored by selected_years_peak), the
selected platform list (selected_platforms_state) and the selected genre
list (selected_genres_state). -/
structure FilterState where
  years : Int × Int
  platforms : List String
  genres : List String
  deriving Repr, DecidableEq

/-- Predicate of the year sub-filter: df.Ano.between applied with the two
slider bounds (inclusive on both ends). -/
def passYear (fs : FilterState) (r : Row) : Bool :=
  fs.years.1 ≤ r.ano && r.ano ≤ fs.years.2

/-- Predicate of the platform sub-filter: df.Console.isin applied to the
selected platforms. -/
def passPlatform (fs : FilterState) (r : Row) : Bool :=
  fs.platforms.contains r.console

/-- Predicate of the genre sub-filter: df.Genero.isin applied to the
selected genres. -/
def passGenre (fs : FilterState) (r : Row) : Bool :=
  fs.genres.contains r.genero

/-- The derived filtered view df_filtered (src/projeto.py lines 161 to
165): the conjunction of the three sub-filter predicates over the base
dataset. -/
def df_filtered (fs : FilterState) (rows : List Row) : List Row :=
  rows.filter (fun r => passYear fs r && passPlatform fs r && passGenre fs r)

/-- Session-state update of the year slider: replaces the years component
only. -/
def setYears (y : Int × Int) (fs : FilterState) : FilterState :=
  { fs with years := y }

/-- Session-state update of selected_platforms_state: replaces the
platforms component only. -/
def setPlatforms (ps : List String) (fs : FilterState) : FilterState :=
  { fs with platforms := ps }

/-- Session-state update of selected_genres_state: replaces the genres
component only. -/
def setGenres (gs : List String) (fs : FilterState) : FilterState :=
  { fs with genres := gs }

/-- Minimum of the Ano column (df.Ano.min), `none` on an empty dataset
(the page stops before this point when the dataset is empty). -/
def min_year : List Row → Option Int
  | [] => none
  | r :: rs =>
      match min_year rs with
      | some m => some (min r.ano m)
      | none => some r.ano

/-- Maximum of the Ano column (df.Ano.max), `none` on an empty dataset. -/
def max_year : List Row → Option Int
  | [] => none
  | r :: rs =>
      match max_year rs with
      | some m => some (max r.ano m)
      | none => some r.ano

/-- Click of a peak-year button (src/projeto.py lines 441 to 443): sets
selected_years_peak to the pair (year, year), whatever the previous
range was. -/
def press_peak_year (y : Int) (_previous : Int × Int) : Int × Int :=
  (y, y)

/-- Click of the remove-peak-filter button (src/projeto.py lines 470 to
472): resets selected_years_peak to (min_year, max_year) of the full
dataset, whatever the previous range was. -/
def remove_peak_filter (rows : List Row) (_previous : Int × Int) : Int × Int :=
  ((min_year rows).getD 0, (max_year rows).getD 0)

/-! ### The Derived Aggregation Layer -/

/-- Sum of the vendas_globais column over a row list. -/
def sumSales (rows : List Row) : Rat :=
  (rows.map Row.vendas_globais).sum

/-- Pandas groupby followed by sum of vendas_globais: one entry per
distinct key (first-seen order; pandas additionally sorts the keys, which
none of the verified properties depend on), whose value is the sum of
vendas_globais over the rows of that group. -/
def groupSum (key : Row → String) (rows : List Row) : List (String × Rat) :=
  ((rows.map key).dedup).map fun c => (c, sumSales (rows.filter (fun r => key r == c)))

/-- Descending stable sort by the metric column (sort_values with
ascending set to False). -/
def sortByMetricDesc (l : List (String × Rat)) : List (String × Rat) :=
  l.insertionSort (fun a b => b.2 ≤ a.2)

/-- The sales_by_genre view (src/projeto.py lines 195 to 196): group the
filtered dataset by Genero, sum vendas_globais, sort descending (no
truncation). -/
def sales_by_genre (rows : List Row) : List (String × Rat) :=
  sortByMetricDesc (groupSum Row.genero rows)

/-- The sales_by_platform view before its head(15) truncation
(src/projeto.py lines 220 to 221). -/
def sales_by_platform_all (rows : List Row) : List (String × Rat) :=
  sortByMetricDesc (groupSum Row.console rows)

/-- The sales_by_platform view (top 15). -/
def sales_by_platform (rows : List Row) : List (String × Rat) :=
  (sales_by_platform_all rows).take 15

/-- The sales_by_publisher view before its head(10) truncation
(src/projeto.py lines 271 to 272). -/
def sales_by_publisher_all (rows : List Row) : List (String × Rat) :=
  sortByMetricDesc (groupSum Row.editora rows)

/-- The sales_by_publisher view (top 10). -/
def sales_by_publisher (rows : List Row) : List (String × Rat) :=
  (sales_by_publisher_all rows).take 10

/-- The distinct years of a dataset in ascending order (pandas groupby
sorts its integer keys ascending). -/
def yearKeys (rows : List Row) : List Int :=
  ((rows.map Row.ano).dedup).insertionSort (fun a b => a ≤ b)

/-- Sum of vendas_globais over the rows of one year. -/
def totalYear (rows : List Row) (y : Int) : Rat :=
  sumSales (rows.filter (fun r => r.ano == y))

/-- The year-trend view sales_by_year_sum (src/projeto.py line 103,
recomputed on the filtered set at line 245): group by Ano, sum
vendas_globais, years in ascending order. -/
def sales_by_year_sum (rows : List Row) : List (Int × Rat) :=
  (yearKeys rows).map fun y => (y, totalYear rows y)

/-- One selection step of pandas nlargest with keep set to first: extract
the first entry holding the maximum metric value, returning it together
with the remaining entries in their original order. -/
def pickFirstMax : List (Int × Rat) → Option ((Int × Rat) × List (Int × Rat))
  | [] => none
  | a :: rest =>
      match pickFirstMax rest with
      | none => some (a, [])
      | some (b, rest') => if a.2 < b.2 then some (b, a :: rest') else some (a, rest)

/-- Iterated first-maximum selection: the selected entries (in selection
order) and the remaining entries.  Models pandas nlargest with keep set
to first: n rows ordered by the metric descending, ties resolved in
favour of earlier rows. -/
def nlargestSplit : Nat → List (Int × Rat) → List (Int × Rat) × List (Int × Rat)
  | 0, l => ([], l)
  | n + 1, l =>
      match pickFirstMax l with
      | none => ([], l)
      | some (a, rest) =>
          let p := nlargestSplit n rest
          (a :: p.1, p.2)

/-- Pandas nlargest applied with keep set to first. -/
def nlargest (n : Nat) (l : List (Int × Rat)) : List (Int × Rat) :=
  (nlargestSplit n l).1

/-- The top_3_years view (src/projeto.py line 104): the 3 entries of the
full-dataset year-trend view with the largest summed global sales.  Note
it is computed from the whole post-normalization dataset df, not from
df_filtered. -/
def top_3_years (rows : List Row) : List (Int × Rat) :=
  nlargest 3 (sales_by_year_sum rows)

/-- The distinct values of a category column within the rows of one year,
in first-seen order. -/
def catsInYear (key : Row → String) (rows : List Row) (y : Int) : List String :=
  ((rows.filter (fun r => r.ano == y)).map key).dedup

/-- Sum of vendas_globais over the rows of one (category, year) group. -/
def catYearTotal (key : Row → String) (rows : List Row) (c : String) (y : Int) : Rat :=
  sumSales (rows.filter (fun r => key r == c && r.ano == y))

/-- The sales_by_category_year view (src/projeto.py line 571): one entry
per distinct (category, year) pair with the summed vendas_globais of the
group.  Pandas lists the groups sorted by category then year; our list is
ordered year-major, which none of the verified properties depend on (the
set of entries and their values coincide). -/
def sales_by_category_year (key : Row → String) (rows : List Row) :
    List ((String × Int) × Rat) :=
  (yearKeys rows).flatMap fun y =>
    (catsInYear key rows y).map fun c => ((c, y), catYearTotal key rows c y)

/-- The result of one elementwise float computation in the market-share
column: a finite value, NaN, or a signed infinity. -/
inductive DivResult where
  | val (q : Rat)
  | nan
  | posInf
  | negInf
  deriving Repr, DecidableEq

/-- The Participacao_Mercado cell for a category-year numerator v and a
year grand total t: the float expression v / t * 100 under IEEE/numpy
semantics — a finite value when t is nonzero, NaN when 0.0 / 0.0, and a
signed infinity when v is nonzero and t is zero (multiplying by the
positive constant 100 keeps NaN and the sign of the infinity). -/
def pctValue (v t : Rat) : DivResult :=
  if t = 0 then
    (if v = 0 then .nan else if 0 < v then .posInf else .negInf)
  else .val (v / t * 100)

/-- The df_market_share view (src/projeto.py lines 566 to 575): merge of
sales_by_category_year with total_sales_per_year on Ano (an inner join in
which every category-year entry finds its year total, both being grouped
from the same filtered dataset), followed by the Participacao_Mercado
column = vendas_globais / Total_Ano * 100 computed elementwise with float
semantics (see pctValue). -/
def df_market_share (key : Row → String) (rows : List Row) :
    List ((String × Int) × DivResult) :=
  (sales_by_category_year key rows).map fun e =>
    (e.1, pctValue e.2 (totalYear rows e.1.2))

/-- Read a finite percentage, and 0 for the non-finite ones — an
aggregation device of this development so that sums of percentages are
defined, not a behaviour of the program. -/
def finiteOrZero : DivResult → Rat
  | .val q => q
  | _ => 0

/-- The market-share percentages of one year: the Participacao_Mercado
values of the entries of that year (non-finite cells read as 0 so that
the sum is defined). -/
def marketShareOfYear (key : Row → String) (rows : List Row) (y : Int) : List Rat :=
  ((df_market_share key rows).filter (fun e => e.1.2 == y)).map fun e => finiteOrZero e.2

/-! ### Regional split and treemap reshape -/

/-- The four regional sales column names, in the order used by the
source. -/
def regionCols : List String :=
  ["vendas_na", "vendas_eu", "vendas_jp", "vendas_outros"]

/-- The value of one regional sales column of a record. -/
def regionValue (reg : String) (r : Row) : Rat :=
  if reg == "vendas_na" then r.vendas_na
  else if reg == "vendas_eu" then r.vendas_eu
  else if reg == "vendas_jp" then r.vendas_jp
  else r.vendas_outros

/-- The region_display_map of the source: display name of each regional
column. -/
def region_display_map (reg : String) : String :=
  if reg == "vendas_na" then "América do Norte (NA)"
  else if reg == "vendas_eu" then "Europa (EU)"
  else if reg == "vendas_jp" then "Japão (JP)"
  else "Outras Regiões"

/-- The region_sales_data view (src/projeto.py lines 297 to 306): the sum
of each of the four regional columns over the filtered dataset, as a
4-row (display region, total) table. -/
def region_sales_data (rows : List Row) : List (String × Rat) :=
  regionCols.map fun reg =>
    (region_display_map reg, (rows.map (regionValue reg)).sum)

/-- One row of the melted (long-form) treemap table: the id columns Nome,
Genero and Console, the melted variable Regiao and its value Vendas. -/
structure MeltRow where
  nome : String
  genero : String
  console : String
  regiao : String
  vendas : Rat
  deriving Repr, DecidableEq

/-- The df_treemap_data view (src/projeto.py lines 340 to 348): melt of
the four regional columns of the filtered dataset (pandas melt lists all
rows of the first value column, then all rows of the second, and so on),
then removal of the rows whose Vendas is not strictly positive, then the
region display remapping. -/
def df_treemap_data (rows : List Row) : List MeltRow :=
  (((regionCols.flatMap fun reg =>
      rows.map fun r =>
        MeltRow.mk r.nome r.genero r.console reg (regionValue reg r)).filter
    (fun m => 0 < m.vendas)).map
    fun m => { m with regiao := region_display_map m.regiao })

/-! ### Helper lemmas -/

/-- Splitting a sum of mapped values along a Boolean predicate. -/
theorem sum_map_filter_not (f : Row → Rat) (p : Row → Bool) (l : List Row) :
    ((l.filter p).map f).sum + ((l.filter (fun r => !p r)).map f).sum = (l.map f).sum := by
  induction l with
  | nil => simp
  | cons a t ih =>
      by_cases h : p a
      · simp only [List.filter_cons, h, if_pos, Bool.not_true, Bool.false_eq_true,
          if_false, List.map_cons, List.sum_cons, if_true]
        rw [← ih]; ring
      · simp only [List.filter_cons, h, Bool.false_eq_true, if_false, Bool.not_false,
          if_true, List.map_cons, List.sum_cons]
        rw [← ih]; ring

/-- Partition of the total sales along a complete, duplicate-free list of
group keys: summing the per-group sums recovers the ungrouped sum. -/
theorem sum_over_groups (key : Row → String) :
    ∀ (ks : List String) (l : List Row), ks.Nodup → (∀ r ∈ l, key r ∈ ks) →
      (ks.map (fun c => sumSales (l.filter (fun r => key r == c)))).sum = sumSales l := by
  intro ks
  induction ks with
  | nil =>
      intro l _ hcov
      cases l with
      | nil => simp [sumSales]
      | cons a t => exact absurd (hcov a (by simp)) (by simp)
  | cons c ks ih =>
      intro l hnd hcov
      have hcks : c ∉ ks := (List.nodup_cons.mp hnd).1
      have hblocks : ∀ c' ∈ ks,
          l.filter (fun r => key r == c') =
          (l.filter (fun r => !(key r == c))).filter (fun r => key r == c') := by
        intro c' hc'
        rw [List.filter_filter]
        apply List.filter_congr
        intro r _
        by_cases hk : key r = c'
        · have hcc : c' ≠ c := fun h => hcks (h ▸ hc')
          simp [hk, hcc]
        · simp [hk]
      have hmap : (ks.map (fun c' => sumSales (l.filter (fun r => key r == c')))).sum =
          (ks.map (fun c' => sumSales
            ((l.filter (fun r => !(key r == c))).filter (fun r => key r == c')))).sum := by
        congr 1
        exact List.map_congr_left (fun c' hc' => by rw [hblocks c' hc'])
      have hcov' : ∀ r ∈ l.filter (fun r => !(key r == c)), key r ∈ ks := by
        intro r hr
        have hrl := List.mem_filter.mp hr
        have hkc : key r ≠ c := by
          have := hrl.2; simpa using this
        have := hcov r hrl.1
        simpa [hkc] using this
      have hrec := ih (l.filter (fun r => !(key r == c))) (List.nodup_cons.mp hnd).2 hcov'
      simp only [List.map_cons, List.sum_cons]
      rw [hmap, hrec]
      exact sum_map_filter_not Row.vendas_globais (fun r => key r == c) l

/-- Summing the second components of a groupSum view recovers the
ungrouped sum of vendas_globais. -/
theorem groupSum_sum (key : Row → String) (rows : List Row) :
    ((groupSum key rows).map (fun e => e.2)).sum = sumSales rows := by
  unfold groupSum
  rw [List.map_map]
  exact sum_over_groups key _ rows (List.nodup_dedup _)
    (fun r hr => List.mem_dedup.2 (List.mem_map_of_mem key hr))

/-- Sorting by the metric does not change the summed metric. -/
theorem sortByMetricDesc_sum (l : List (String × Rat)) :
    ((sortByMetricDesc l).map (fun e => e.2)).sum = (l.map (fun e => e.2)).sum :=
  List.Perm.sum_eq (List.Perm.map _ (List.perm_insertionSort _ l))

/-- The min_year of a nonempty list is defined. -/
theorem min_year_cons_isSome (b : Row) (u : List Row) : (min_year (b :: u)).isSome := by
  cases h : min_year u <;> simp [min_year, h]

/-- The max_year of a nonempty list is defined. -/
theorem max_year_cons_isSome (b : Row) (u : List Row) : (max_year (b :: u)).isSome := by
  cases h : max_year u <;> simp [max_year, h]

/-- The minimum of the Ano column bounds every member from below. -/
theorem min_year_le {rows : List Row} {r : Row} (hr : r ∈ rows) :
    (min_year rows).getD 0 ≤ r.ano := by
  induction rows with
  | nil => cases hr
  | cons a t ih =>
      rcases List.mem_cons.mp hr with h | h
      · subst h
        cases ht : min_year t with
        | none => simp [min_year, ht]
        | some m => simp [min_year, ht, min_le_left]
      · have hle := ih h
        cases ht : min_year t with
        | none =>
            exfalso
            cases t with
            | nil => cases h
            | cons b u =>
                have hs := min_year_cons_isSome b u
                rw [ht] at hs
                simp at hs
        | some m =>
            rw [ht] at hle
            calc (min_year (a :: t)).getD 0 = min a.ano m := by simp [min_year, ht]
              _ ≤ m := min_le_right _ _
              _ ≤ r.ano := by simpa using hle

/-- The maximum of the Ano column bounds every member from above. -/
theorem max_year_ge {rows : List Row} {r : Row} (hr : r ∈ rows) :
    r.ano ≤ (max_year rows).getD 0 := by
  induction rows with
  | nil => cases hr
  | cons a t ih =>
      rcases List.mem_cons.mp hr with h | h
      · subst h
        cases ht : max_year t with
        | none => simp [max_year, ht]
        | some m => simp [max_year, ht, le_max_left]
      · have hle := ih h
        cases ht : max_year t with
        | none =>
            exfalso
            cases t with
            | nil => cases h
            | cons b u =>
                have hs := max_year_cons_isSome b u
                rw [ht] at hs
                simp at hs
        | some m =>
            rw [ht] at hle
            calc r.ano ≤ m := by simpa using hle
              _ ≤ max a.ano m := le_max_right _ _
              _ = (max_year (a :: t)).getD 0 := by simp [max_year, ht]

/-- Decomposition of a successful row normalization: every required cell
was present, each sales cell coerced successfully, and the output fields
are exactly the coerced values. -/
theorem normalizeRow_eq_some {r : RawRow} {row : Row} (h : normalizeRow r = some row) :
    r.ano = some row.ano ∧ r.editora = some row.editora ∧
    parseSale r.vendas_na = some row.vendas_na ∧
    parseSale r.vendas_eu = some row.vendas_eu ∧
    parseSale r.vendas_jp = some row.vendas_jp ∧
    parseSale r.vendas_outros = some row.vendas_outros ∧
    parseSale r.vendas_globais = some row.vendas_globais ∧
    row.genero = translateGenre r.genero := by
  simp only [normalizeRow, Option.pure_def, Option.bind_eq_bind,
    Option.bind_eq_some, Option.some.injEq] at h
  obtain ⟨a, ha, e, he, na, hna, eu, heu, jp, hjp, ou, hou, gl, hgl, hrow⟩ := h
  subst hrow
  exact ⟨ha, he, hna, heu, hjp, hou, hgl, rfl⟩

/-- A row with any sales cell failing numeric coercion is dropped. -/
theorem normalizeRow_drop {r : RawRow}
    (h : parseSale r.vendas_na = none ∨ parseSale r.vendas_eu = none ∨
         parseSale r.vendas_jp = none ∨ parseSale r.vendas_outros = none ∨
         parseSale r.vendas_globais = none) :
    normalizeRow r = none := by
  cases hn : normalizeRow r with
  | none => rfl
  | some row =>
      obtain ⟨_, _, hna, heu, hjp, hou, hgl, _⟩ := normalizeRow_eq_some hn
      rcases h with h | h | h | h | h <;> simp_all

/-! ### The claims -/

/-- Claim C1, corrected.  Every loader failure mode — source file absent
after download, required source columns missing (rename failure), remote
authentication failure, remote fetch failure, any other unexpected error —
produces a user-visible st.error diagnostic and does not crash; the
missing-column, authentication, fetch and unexpected failure modes return
an empty DataFrame, while the file-absent mode halts the script (st.stop)
after its diagnostic instead of returning an empty result. -/
theorem c1_loader_failure_modes (f : FetchOutcome) (h : f.isFailure = true) :
    (load_data f).errors ≠ [] ∧
    (f ≠ .fileNotFound → (load_data f).outcome = .returned []) ∧
    (f = .fileNotFound → (load_data f).outcome = .halted) := by
  cases f with
  | success raw =>
      have hany : renameMap.any (fun p => !raw.cols.contains p.1) = true := by
        simpa [FetchOutcome.isFailure] using h
      cases hf : renameMap.find? (fun p => !raw.cols.contains p.1) with
      | none =>
          exfalso
          obtain ⟨q, hq, hqq⟩ := List.any_eq_true.mp hany
          exact absurd hqq (by simpa using List.find?_eq_none.mp hf q hq)
      | some q =>
          refine ⟨?_, fun _ => ?_, fun hfn => by cases hfn⟩ <;>
          · simp only [load_data, renameColumns]
            rw [hf]
            try simp
  | fileNotFound => refine ⟨?_, fun hne => absurd rfl hne, fun _ => ?_⟩ <;> simp [load_data]
  | authFailure => refine ⟨?_, fun _ => ?_, fun hfn => by cases hfn⟩ <;> simp [load_data]
  | httpFailure => refine ⟨?_, fun _ => ?_, fun hfn => by cases hfn⟩ <;> simp [load_data]
  | otherFailure => refine ⟨?_, fun _ => ?_, fun hfn => by cases hfn⟩ <;> simp [load_data]

/-- A concrete raw table whose header is missing the Name column (all the
other nine expected columns are present). -/
def rawMissingName : RawTable :=
  { cols := ["Rank", "Platform", "Year", "Genre", "Publisher", "NA_Sales",
             "EU_Sales", "JP_Sales", "Other_Sales", "Global_Sales"],
    rows := [] }

/-- Witness for claim C1: the missing-required-column failure mode is
satisfiable, emits a diagnostic and returns an empty DataFrame. -/
theorem c1_loader_failure_modes_witness :
    (FetchOutcome.success rawMissingName).isFailure = true ∧
    (load_data (.success rawMissingName)).errors ≠ [] ∧
    (load_data (.success rawMissingName)).outcome = .returned [] :=
  ⟨by decide,
   (c1_loader_failure_modes (.success rawMissingName) (by decide)).1,
   (c1_loader_failure_modes (.success rawMissingName) (by decide)).2.1 (by decide)⟩

/-- Counterexample for claim C1 as stated: in the source-file-absent
failure mode, load_data does not return an empty result — the except
branch for FileNotFoundError calls st.stop, halting the script. -/
theorem c1_counterexample :
    (load_data FetchOutcome.fileNotFound).outcome ≠ LoadOutcome.returned [] ∧
    (load_data FetchOutcome.fileNotFound).outcome = LoadOutcome.halted := by
  decide

/-- Claim C2, confirmed.  A raw table missing one of the required source
columns (some key of the rename map absent from its header) makes the
rename step raise (errors set to raise: the rename returns no table at
all, a fortiori no partially-renamed one), and load_data catches the
KeyError, emits a diagnostic and returns an empty DataFrame. -/
theorem c2_missing_column_fails (raw : RawTable) (p : String × String)
    (hp : p ∈ renameMap) (hmiss : p.1 ∉ raw.cols) :
    (renameColumns raw.cols).isOk = false ∧
    (load_data (.success raw)).outcome = .returned [] ∧
    (load_data (.success raw)).errors ≠ [] := by
  have hany : renameMap.any (fun q => !raw.cols.contains q.1) = true :=
    List.any_eq_true.mpr ⟨p, hp, by simpa using hmiss⟩
  cases hf : renameMap.find? (fun q => !raw.cols.contains q.1) with
  | none =>
      exfalso
      obtain ⟨q, hq, hqq⟩ := List.any_eq_true.mp hany
      exact absurd hqq (by simpa using List.find?_eq_none.mp hf q hq)
  | some q =>
      refine ⟨?_, ?_, ?_⟩ <;>
      · simp only [load_data, renameColumns]
        rw [hf]
        try simp [Except.isOk, Except.toBool]

/-- Witness for claim C2 at the concrete table missing the Name column. -/
theorem c2_missing_column_fails_witness :
    ("Name", "Nome") ∈ renameMap ∧ "Name" ∉ rawMissingName.cols ∧
    ((renameColumns rawMissingName.cols).isOk = false ∧
     (load_data (.success rawMissingName)).outcome = .returned [] ∧
     (load_data (.success rawMissingName)).errors ≠ []) :=
  ⟨by decide, by decide,
   c2_missing_column_fails rawMissingName ("Name", "Nome") (by decide) (by decide)⟩

/-- Claim C9, confirmed.  Clicking a peak-year button sets the year-range
filter to exactly that year (both bounds equal to it); clicking the
remove-peak-filter button afterwards restores the full dataset range
(min_year, max_year) — a range bounding the year of every record of the
full dataset — regardless of any previously-narrowed custom range. -/
theorem c9_peak_year_shortcut (rows : List Row) (y : Int) (s custom : Int × Int)
    (r : Row) (hr : r ∈ rows) :
    press_peak_year y s = (y, y) ∧
    remove_peak_filter rows (press_peak_year y s) =
      ((min_year rows).getD 0, (max_year rows).getD 0) ∧
    remove_peak_filter rows custom = remove_peak_filter rows s ∧
    (remove_peak_filter rows s).1 ≤ r.ano ∧ r.ano ≤ (remove_peak_filter rows s).2 :=
  ⟨rfl, rfl, rfl, min_year_le hr, max_year_ge hr⟩

/-- A concrete two-record dataset spanning the years 1998 to 2003. -/
def peakExampleRows : List Row :=
  [⟨"Jogo A", "Console A", 1998, "Tiro", "Editora A", 1, 1, 1, 1, 1⟩,
   ⟨"Jogo B", "Console B", 2003, "Luta", "Editora B", 2, 2, 2, 2, 2⟩]

/-- Witness for claim C9: selecting the peak-year shortcut for year 2000
from the previously-narrowed custom range (2005, 2007) and then removing
the peak filter restores the full range of the concrete dataset. -/
theorem c9_peak_year_shortcut_witness :
    peakExampleRows[0] ∈ peakExampleRows ∧
    (press_peak_year 2000 (2005, 2007) = (2000, 2000) ∧
     remove_peak_filter peakExampleRows (press_peak_year 2000 (2005, 2007)) =
       ((min_year peakExampleRows).getD 0, (max_year peakExampleRows).getD 0) ∧
     remove_peak_filter peakExampleRows (2005, 2007) =
       remove_peak_filter peakExampleRows (2005, 2007) ∧
     (remove_peak_filter peakExampleRows (2005, 2007)).1 ≤ peakExampleRows[0].ano ∧
     peakExampleRows[0].ano ≤ (remove_peak_filter peakExampleRows (2005, 2007)).2) :=
  ⟨by simp [peakExampleRows],
   c9_peak_year_shortcut peakExampleRows 2000 (2005, 2007) (2005, 2007)
     peakExampleRows[0] (by simp [peakExampleRows])⟩

/-- Claim C6, confirmed.  Category-totals aggregation is sum-preserving:
for every base dataset and filter state, and for each of the three
categorical grouping columns (genre, platform, publisher), the sum of the
aggregated metric over all categories — before any top-N truncation —
equals the sum of vendas_globais over the ungrouped filtered set. -/
theorem c6_category_totals_sum_preserving (base : List Row) (fs : FilterState) :
    ((sales_by_genre (df_filtered fs base)).map (fun e => e.2)).sum
        = sumSales (df_filtered fs base) ∧
    ((sales_by_platform_all (df_filtered fs base)).map (fun e => e.2)).sum
        = sumSales (df_filtered fs base) ∧
    ((sales_by_publisher_all (df_filtered fs base)).map (fun e => e.2)).sum
        = sumSales (df_filtered fs base) := by
  refine ⟨?_, ?_, ?_⟩ <;>
    simp [sales_by_genre, sales_by_platform_all, sales_by_publisher_all,
      sortByMetricDesc_sum, groupSum_sum]

/-- Claim C7, confirmed.  Filter derivation is commutative and
idempotent: applying the year, platform and genre predicates in any of
the six orders yields exactly the filtered view; reapplying the identical
filter state to its own output changes nothing; and each session-state
update of one filter dimension leaves the other two dimensions
untouched. -/
theorem c7_filtering_commutative_idempotent (base : List Row) (fs : FilterState) :
    (((base.filter (passYear fs)).filter (passPlatform fs)).filter (passGenre fs)
        = df_filtered fs base) ∧
    (((base.filter (passYear fs)).filter (passGenre fs)).filter (passPlatform fs)
        = df_filtered fs base) ∧
    (((base.filter (passPlatform fs)).filter (passYear fs)).filter (passGenre fs)
        = df_filtered fs base) ∧
    (((base.filter (passPlatform fs)).filter (passGenre fs)).filter (passYear fs)
        = df_filtered fs base) ∧
    (((base.filter (passGenre fs)).filter (passYear fs)).filter (passPlatform fs)
        = df_filtered fs base) ∧
    (((base.filter (passGenre fs)).filter (passPlatform fs)).filter (passYear fs)
        = df_filtered fs base) ∧
    (df_filtered fs (df_filtered fs base) = df_filtered fs base) ∧
    (∀ ps, (setPlatforms ps fs).years = fs.years ∧ (setPlatforms ps fs).genres = fs.genres) ∧
    (∀ gs, (setGenres gs fs).years = fs.years ∧ (setGenres gs fs).platforms = fs.platforms) ∧
    (∀ yr, (setYears yr fs).platforms = fs.platforms ∧ (setYears yr fs).genres = fs.genres) := by
  refine ⟨?_, ?_, ?_, ?_, ?_, ?_, ?_,
    fun ps => ⟨rfl, rfl⟩, fun gs => ⟨rfl, rfl⟩, fun yr => ⟨rfl, rfl⟩⟩ <;>
  · simp only [df_filtered, List.filter_filter]
    apply List.filter_congr
    intro r _
    cases hy : passYear fs r <;> cases hp : passPlatform fs r <;>
      cases hg : passGenre fs r <;> simp [hy, hp, hg]

/-- Claim C3, amended.  Any row whose value in one of the five sales
fields fails numeric conversion is absent from the normalized output, and
each sales field of a normalized row is exactly the coerced source value:
it is therefore ≥ 0 whenever the coerced source value is ≥ 0.  (The code
itself never enforces non-negativity: see the counterexample.) -/
theorem c3_sales_nonneg_amended :
    (∀ (r : RawRow) (row : Row), normalizeRow r = some row →
      (((0:Rat) ≤ (parseSale r.vendas_na).getD 0 → 0 ≤ row.vendas_na) ∧
       ((0:Rat) ≤ (parseSale r.vendas_eu).getD 0 → 0 ≤ row.vendas_eu) ∧
       ((0:Rat) ≤ (parseSale r.vendas_jp).getD 0 → 0 ≤ row.vendas_jp) ∧
       ((0:Rat) ≤ (parseSale r.vendas_outros).getD 0 → 0 ≤ row.vendas_outros) ∧
       ((0:Rat) ≤ (parseSale r.vendas_globais).getD 0 → 0 ≤ row.vendas_globais))) ∧
    (∀ r : RawRow,
      (parseSale r.vendas_na = none ∨ parseSale r.vendas_eu = none ∨
       parseSale r.vendas_jp = none ∨ parseSale r.vendas_outros = none ∨
       parseSale r.vendas_globais = none) → normalizeRow r = none) := by
  constructor
  · intro r row h
    obtain ⟨_, _, hna, heu, hjp, hou, hgl, _⟩ := normalizeRow_eq_some h
    refine ⟨?_, ?_, ?_, ?_, ?_⟩
    · rw [hna]; exact id
    · rw [heu]; exact id
    · rw [hjp]; exact id
    · rw [hou]; exact id
    · rw [hgl]; exact id
  · exact fun r => normalizeRow_drop

/-- A concrete raw row whose vendas_na cell is the numeral -1 (and whose
other cells are well formed). -/
def negRaw : RawRow :=
  ⟨"Jogo N", "Console N", some 1999, "Action", some "Editora N",
   "-1", "1", "1", "1", "1"⟩

/-- The normalized record produced from negRaw. -/
def negRow : Row :=
  ⟨"Jogo N", "Console N", 1999, "Ação", "Editora N", -1, 1, 1, 1, 1⟩

/-- Counterexample for claim C3 as stated: the row whose vendas_na cell
reads -1 survives normalization with a negative vendas_na, so not every
numeric sales field of the normalized output is ≥ 0. -/
theorem c3_counterexample :
    normalizeRow negRaw = some negRow ∧ negRow.vendas_na < 0 := by
  decide

/-- A concrete well-formed raw row. -/
def rawW : RawRow :=
  ⟨"Jogo W", "Console W", some 2002, "Action", some "Editora W",
   "1", "1", "1", "1", "1"⟩

/-- The normalized record produced from rawW. -/
def rowW : Row :=
  ⟨"Jogo W", "Console W", 2002, "Ação", "Editora W", 1, 1, 1, 1, 1⟩

/-- A concrete raw row whose vendas_na cell fails coercion. -/
def rawBad : RawRow :=
  ⟨"Jogo W", "Console W", some 2002, "Action", some "Editora W",
   "", "1", "1", "1", "1"⟩

set_option maxHeartbeats 1000000 in
/-- Witness for claim C3 at a concrete well-formed raw row. -/
theorem c3_sales_nonneg_amended_witness :
    normalizeRow rawW = some rowW ∧
    ((0:Rat) ≤ (parseSale rawW.vendas_na).getD 0 → (0:Rat) ≤ rowW.vendas_na) ∧
    parseSale rawBad.vendas_na = none ∧
    normalizeRow rawBad = none :=
  ⟨by decide,
   ((c3_sales_nonneg_amended.1 rawW rowW (by decide)).1),
   by decide,
   (c3_sales_nonneg_amended.2 rawBad (Or.inl (by decide)))⟩

/-- A concrete raw row whose vendas_na cell reads the comma-decimal
numeral 1,5. -/
def rawComma : RawRow :=
  ⟨"Jogo C", "Console C", some 2001, "Action", some "Editora C",
   "1,5", "1", "1", "1", "1"⟩

/-- The normalized record produced from rawComma (vendas_na = 3/2). -/
def rowComma : Row :=
  ⟨"Jogo C", "Console C", 2001, "Ação", "Editora C", mkRat 3 2, 1, 1, 1, 1⟩

/-- A concrete raw row whose vendas_na cell reads N/A. -/
def rawNA : RawRow :=
  ⟨"Jogo D", "Console D", some 2001, "Action", some "Editora D",
   "N/A", "1", "1", "1", "1"⟩

set_option maxHeartbeats 1000000 in
/-- Claim C4, confirmed.  For each of the five numeric sales columns,
normalization treats the source cell as text, replaces every decimal
comma by a decimal point, converts the result to a number, treats a value
that fails conversion as missing, and drops any row still missing one of
the five columns: the sales fields of every normalized row are exactly
the so-coerced source cells, a row with a failing cell is absent, the
input cell 1,5 coerces to the number 3/2, and a row whose sales cell
reads N/A is dropped. -/
theorem c4_sales_coercion :
    (∀ (r : RawRow) (row : Row), normalizeRow r = some row →
       parseSale r.vendas_na = some row.vendas_na ∧
       parseSale r.vendas_eu = some row.vendas_eu ∧
       parseSale r.vendas_jp = some row.vendas_jp ∧
       parseSale r.vendas_outros = some row.vendas_outros ∧
       parseSale r.vendas_globais = some row.vendas_globais) ∧
    (∀ r : RawRow,
      (parseSale r.vendas_na = none ∨ parseSale r.vendas_eu = none ∨
       parseSale r.vendas_jp = none ∨ parseSale r.vendas_outros = none ∨
       parseSale r.vendas_globais = none) → normalizeRow r = none) ∧
    parseSale "1,5" = some ((3:Rat)/2) ∧
    normalizeRow rawComma = some rowComma ∧ rowComma.vendas_na = (3:Rat)/2 ∧
    normalizeRow rawNA = none := by
  refine ⟨?_, fun r => normalizeRow_drop, ?_, by decide, ?_, by decide⟩
  · intro r row h
    obtain ⟨_, _, hna, heu, hjp, hou, hgl, _⟩ := normalizeRow_eq_some h
    exact ⟨hna, heu, hjp, hou, hgl⟩
  · have h15 : parseSale "1,5" = some (mkRat 3 2) := by decide
    rw [h15, Rat.mkRat_eq_divInt, Rat.divInt_eq_div]
    norm_num
  · show mkRat 3 2 = (3:Rat)/2
    rw [Rat.mkRat_eq_divInt, Rat.divInt_eq_div]
    norm_num

set_option maxHeartbeats 1000000 in
/-- Witness for claim C4 at the comma-decimal and N/A rows. -/
theorem c4_sales_coercion_witness :
    normalizeRow rawComma = some rowComma ∧
    parseSale rawComma.vendas_na = some rowComma.vendas_na ∧
    parseSale rawNA.vendas_na = none ∧
    normalizeRow rawNA = none :=
  ⟨by decide,
   (c4_sales_coercion.1 rawComma rowComma (by decide)).1,
   by decide,
   c4_sales_coercion.2.1 rawNA (Or.inl (by decide))⟩

/-- Filtering a list of rationals to its strictly positive members
preserves the sum exactly when every member is non-negative (only zeros
are dropped). -/
theorem sum_filter_pos_of_nonneg (l : List Rat) (h : ∀ x ∈ l, 0 ≤ x) :
    (l.filter (fun x => 0 < x)).sum = l.sum := by
  induction l with
  | nil => rfl
  | cons a t ih =>
      have ha := h a (List.mem_cons_self a t)
      have iht := ih (fun x hx => h x (List.mem_cons_of_mem a hx))
      by_cases hp : 0 < a
      · simp [List.filter_cons, hp, iht]
      · have ha0 : a = 0 := le_antisymm (not_lt.mp hp) ha
        simp [List.filter_cons, hp, iht, ha0]

/-- The melted treemap values are, up to the positivity filter, the four
per-region value columns laid end to end. -/
theorem df_treemap_data_map_vendas (rows : List Row) :
    (df_treemap_data rows).map (fun m => m.vendas) =
      ((regionCols.flatMap fun reg => rows.map (regionValue reg)).filter
        (fun v => 0 < v)) := by
  unfold df_treemap_data
  rw [List.map_map]
  have hcomp : ((fun m : MeltRow => m.vendas) ∘
      fun m => { m with regiao := region_display_map m.regiao }) =
      fun m : MeltRow => m.vendas := rfl
  rw [hcomp]
  have hpred : (fun m : MeltRow => decide (0 < m.vendas)) =
      ((fun v : Rat => decide (0 < v)) ∘ fun m : MeltRow => m.vendas) := rfl
  rw [hpred, ← List.filter_map]
  congr 1
  rw [List.map_flatMap]
  congr 1
  funext reg
  rw [List.map_map]
  rfl

/-- Claim C10, amended.  For every filtered dataset all of whose regional
sales values are non-negative, the sum of the per-record per-region
Vendas values of the treemap reshape (melt of the four regional columns,
rows with non-positive value discarded) equals the sum of the four
regional sales columns over the filtered dataset — the same totals
produced by the regional-split view.  (Melting discards every row whose
value is not strictly positive, so a negative value breaks the identity:
see the counterexample.) -/
theorem c10_treemap_sum_preserving (base : List Row) (fs : FilterState)
    (h : ∀ r ∈ df_filtered fs base,
      0 ≤ r.vendas_na ∧ 0 ≤ r.vendas_eu ∧ 0 ≤ r.vendas_jp ∧ 0 ≤ r.vendas_outros) :
    ((df_treemap_data (df_filtered fs base)).map (fun m => m.vendas)).sum =
      ((region_sales_data (df_filtered fs base)).map (fun e => e.2)).sum := by
  set rows := df_filtered fs base with hrows
  rw [df_treemap_data_map_vendas]
  have hnn : ∀ v ∈ (regionCols.flatMap fun reg => rows.map (regionValue reg)), 0 ≤ v := by
    intro v hv
    obtain ⟨reg, hreg, hv⟩ := List.mem_flatMap.mp hv
    obtain ⟨r, hrmem, rfl⟩ := List.mem_map.mp hv
    have hr := h r hrmem
    simp only [regionCols, List.mem_cons, List.not_mem_nil, or_false] at hreg
    rcases hreg with rfl | rfl | rfl | rfl <;>
      simp [regionValue, hr.1, hr.2.1, hr.2.2.1, hr.2.2.2]
  rw [sum_filter_pos_of_nonneg _ hnn]
  unfold region_sales_data
  rw [List.map_map]
  simp [regionCols, List.flatMap_cons, List.flatMap_nil, List.sum_append]

/-- A concrete record with a negative vendas_na regional value. -/
def negRegionRow : Row :=
  ⟨"Jogo X", "Console X", 2000, "Tiro", "Editora X", -1, 1, 1, 1, 2⟩

/-- The all-pass filter state for the one-record dataset of negRegionRow. -/
def negRegionFs : FilterState :=
  ⟨(2000, 2000), ["Console X"], ["Tiro"]⟩

/-- Counterexample for claim C10 as stated: on the filtered one-record
dataset whose vendas_na is -1, the melt discards the negative value (the
filter keeps strictly positive rows only), so the treemap total is 3
while the four regional columns sum to 2. -/
theorem c10_counterexample :
    df_filtered negRegionFs [negRegionRow] = [negRegionRow] ∧
    ((df_treemap_data (df_filtered negRegionFs [negRegionRow])).map
        (fun m => m.vendas)).sum = 3 ∧
    ((region_sales_data (df_filtered negRegionFs [negRegionRow])).map
        (fun e => e.2)).sum = 2 ∧
    (3 : Rat) ≠ 2 := by
  have hf : df_filtered negRegionFs [negRegionRow] = [negRegionRow] := by decide
  have hfl : ((regionCols.flatMap fun reg => [negRegionRow].map (regionValue reg)).filter
      (fun v => 0 < v)) = [1, 1, 1] := by decide
  refine ⟨hf, ?_, ?_, by norm_num⟩
  · rw [hf, df_treemap_data_map_vendas, hfl]
    norm_num
  · rw [hf]
    have h4 : (region_sales_data [negRegionRow]).map (fun e => e.2) =
        [(-1 : Rat) + 0, 1 + 0, 1 + 0, 1 + 0] := by
      simp only [region_sales_data, List.map_map, regionCols, List.map_cons, List.map_nil]
      simp [regionValue, negRegionRow]
    rw [h4]
    norm_num

/-- A concrete record with all regional values equal to 1. -/
def posRegionRow : Row :=
  ⟨"Jogo Y", "Console Y", 2000, "Tiro", "Editora Y", 1, 1, 1, 1, 4⟩

/-- The all-pass filter state for the one-record dataset of posRegionRow. -/
def posRegionFs : FilterState :=
  ⟨(2000, 2000), ["Console Y"], ["Tiro"]⟩

/-- Witness for claim C10 on a one-record dataset with non-negative
regional values. -/
theorem c10_treemap_sum_preserving_witness :
    (∀ r ∈ df_filtered posRegionFs [posRegionRow],
      0 ≤ r.vendas_na ∧ 0 ≤ r.vendas_eu ∧ 0 ≤ r.vendas_jp ∧ 0 ≤ r.vendas_outros) ∧
    ((df_treemap_data (df_filtered posRegionFs [posRegionRow])).map
        (fun m => m.vendas)).sum =
      ((region_sales_data (df_filtered posRegionFs [posRegionRow])).map
        (fun e => e.2)).sum :=
  ⟨by decide, c10_treemap_sum_preserving [posRegionRow] posRegionFs (by decide)⟩

/-! ### Lemmas on the nlargest selection -/

/-- pickFirstMax fails exactly on the empty list. -/
theorem pickFirstMax_eq_none {l : List (Int × Rat)} :
    pickFirstMax l = none ↔ l = [] := by
  cases l with
  | nil => simp [pickFirstMax]
  | cons a t =>
      simp only [pickFirstMax]
      cases pickFirstMax t with
      | none => simp
      | some p => by_cases h : a.2 < p.1.2 <;> simp [h]

/-- The extracted entry together with the remaining entries is a
permutation of the input. -/
theorem pickFirstMax_perm :
    ∀ {l : List (Int × Rat)} {a : Int × Rat} {r : List (Int × Rat)},
      pickFirstMax l = some (a, r) → l.Perm (a :: r) := by
  intro l
  induction l with
  | nil => intro a r h; simp [pickFirstMax] at h
  | cons x t ih =>
      intro a r h
      cases ht : pickFirstMax t with
      | none =>
          simp only [pickFirstMax, ht, Option.some.injEq, Prod.mk.injEq] at h
          obtain ⟨rfl, rfl⟩ := h
          have : t = [] := pickFirstMax_eq_none.mp ht
          subst this
          exact List.Perm.refl _
      | some p =>
          obtain ⟨b, r'⟩ := p
          simp only [pickFirstMax, ht] at h
          have hperm : t.Perm (b :: r') := ih ht
          by_cases hc : x.2 < b.2
          · rw [if_pos hc] at h
            simp only [Option.some.injEq, Prod.mk.injEq] at h
            obtain ⟨rfl, rfl⟩ := h
            exact (List.Perm.cons x hperm).trans (List.Perm.swap _ _ _)
          · rw [if_neg hc] at h
            simp only [Option.some.injEq, Prod.mk.injEq] at h
            obtain ⟨rfl, rfl⟩ := h
            exact List.Perm.refl _

/-- The extracted entry holds the maximum metric value: every remaining
entry is bounded by it. -/
theorem pickFirstMax_le :
    ∀ {l : List (Int × Rat)} {a : Int × Rat} {r : List (Int × Rat)},
      pickFirstMax l = some (a, r) → ∀ y ∈ r, y.2 ≤ a.2 := by
  intro l
  induction l with
  | nil => intro a r h; simp [pickFirstMax] at h
  | cons x t ih =>
      intro a r h
      cases ht : pickFirstMax t with
      | none =>
          simp only [pickFirstMax, ht, Option.some.injEq, Prod.mk.injEq] at h
          obtain ⟨rfl, rfl⟩ := h
          intro y hy
          cases hy
      | some p =>
          obtain ⟨b, r'⟩ := p
          simp only [pickFirstMax, ht] at h
          have hperm : t.Perm (b :: r') := pickFirstMax_perm ht
          have hmax : ∀ y ∈ r', y.2 ≤ b.2 := ih ht
          by_cases hc : x.2 < b.2
          · rw [if_pos hc] at h
            simp only [Option.some.injEq, Prod.mk.injEq] at h
            obtain ⟨rfl, rfl⟩ := h
            intro y hy
            rcases List.mem_cons.mp hy with rfl | hy
            · exact le_of_lt hc
            · exact hmax y hy
          · rw [if_neg hc] at h
            simp only [Option.some.injEq, Prod.mk.injEq] at h
            obtain ⟨rfl, rfl⟩ := h
            intro y hy
            have hyb : y ∈ b :: r' := hperm.mem_iff.mp hy
            rcases List.mem_cons.mp hyb with rfl | hy'
            · exact not_lt.mp hc
            · exact (hmax y hy').trans (not_lt.mp hc)

/-- The selected entries together with the remaining entries form a
permutation of the input. -/
theorem nlargestSplit_perm (n : Nat) :
    ∀ l : List (Int × Rat), l.Perm ((nlargestSplit n l).1 ++ (nlargestSplit n l).2) := by
  induction n with
  | zero => intro l; exact List.Perm.refl _
  | succ n ih =>
      intro l
      cases h : pickFirstMax l with
      | none => simp [nlargestSplit, h]
      | some p =>
          obtain ⟨a, rest⟩ := p
          have hperm : l.Perm (a :: rest) := pickFirstMax_perm h
          have hrest := ih rest
          simp only [nlargestSplit, h]
          exact hperm.trans (List.Perm.cons a hrest)

/-- Every selected entry dominates every non-selected entry. -/
theorem nlargestSplit_le (n : Nat) :
    ∀ (l : List (Int × Rat)) (x : Int × Rat), x ∈ (nlargestSplit n l).1 →
      ∀ y ∈ (nlargestSplit n l).2, y.2 ≤ x.2 := by
  induction n with
  | zero => intro l x hx; cases hx
  | succ n ih =>
      intro l x hx y hy
      cases h : pickFirstMax l with
      | none => simp [nlargestSplit, h] at hx
      | some p =>
          obtain ⟨a, rest⟩ := p
          simp only [nlargestSplit, h] at hx hy
          have hrestmem : y ∈ rest :=
            (nlargestSplit_perm n rest).mem_iff.mpr (List.mem_append_right _ hy)
          rcases List.mem_cons.mp hx with rfl | hx'
          · exact pickFirstMax_le h y hrestmem
          · exact ih rest x hx' y hy

/-- At most n entries are selected. -/
theorem nlargestSplit_length (n : Nat) :
    ∀ l : List (Int × Rat), (nlargestSplit n l).1.length ≤ n := by
  induction n with
  | zero => intro l; simp [nlargestSplit]
  | succ n ih =>
      intro l
      cases h : pickFirstMax l with
      | none => simp [nlargestSplit, h]
      | some p =>
          obtain ⟨a, rest⟩ := p
          simp only [nlargestSplit, h, List.length_cons]
          exact Nat.succ_le_succ (ih rest)

/-- The three records of the worked example of the spec: years 2000 (two
records summing to 4) and 2001 (one record of 2). -/
def c8ExampleRows : List Row :=
  [⟨"Jogo 1", "Console 1", 2000, "GenreX", "Editora 1", 0, 0, 0, 0, 1⟩,
   ⟨"Jogo 2", "Console 1", 2000, "GenreY", "Editora 1", 0, 0, 0, 0, 3⟩,
   ⟨"Jogo 3", "Console 1", 2001, "GenreX", "Editora 1", 0, 0, 0, 0, 2⟩]

/-- The year-trend view of the worked example. -/
theorem c8Example_year_sum : sales_by_year_sum c8ExampleRows = [(2000, 4), (2001, 2)] := by
  have hy : yearKeys c8ExampleRows = [2000, 2001] := by decide
  have hf0 : c8ExampleRows.filter (fun r => r.ano == 2000) =
      [⟨"Jogo 1", "Console 1", 2000, "GenreX", "Editora 1", 0, 0, 0, 0, 1⟩,
       ⟨"Jogo 2", "Console 1", 2000, "GenreY", "Editora 1", 0, 0, 0, 0, 3⟩] := by decide
  have hf1 : c8ExampleRows.filter (fun r => r.ano == 2001) =
      [⟨"Jogo 3", "Console 1", 2001, "GenreX", "Editora 1", 0, 0, 0, 0, 2⟩] := by decide
  have h0 : totalYear c8ExampleRows 2000 = 4 := by
    simp only [totalYear, hf0, sumSales, List.map_cons, List.map_nil, List.sum_cons,
      List.sum_nil]
    norm_num
  have h1 : totalYear c8ExampleRows 2001 = 2 := by
    simp only [totalYear, hf1, sumSales, List.map_cons, List.map_nil, List.sum_cons,
      List.sum_nil]
    norm_num
  simp only [sales_by_year_sum, hy, List.map_cons, List.map_nil, h0, h1]

/-- Claim C8, confirmed.  The top-3 peak years are computed from the full
post-normalization year-trend view (top_3_years is a function of the base
dataset only, never of the filter state): they are 3 entries of that view
whose summed global sales dominate every non-selected entry, ties going
to the earlier year (first-seen order of the selection primitive); on the
worked example rows the year-trend view is [(2000, 4), (2001, 2)] and the
top-1 peak year is 2000. -/
theorem c8_top_3_years (rows : List Row) :
    top_3_years rows = nlargest 3 (sales_by_year_sum rows) ∧
    (sales_by_year_sum rows).Perm
      (top_3_years rows ++ (nlargestSplit 3 (sales_by_year_sum rows)).2) ∧
    (∀ x ∈ top_3_years rows,
      ∀ y ∈ (nlargestSplit 3 (sales_by_year_sum rows)).2, y.2 ≤ x.2) ∧
    (top_3_years rows).length ≤ 3 ∧
    sales_by_year_sum c8ExampleRows = [(2000, 4), (2001, 2)] ∧
    nlargest 1 (sales_by_year_sum c8ExampleRows) = [(2000, 4)] := by
  refine ⟨rfl, nlargestSplit_perm 3 _,
    fun x hx y hy => nlargestSplit_le 3 _ x hx y hy,
    nlargestSplit_length 3 _, c8Example_year_sum, ?_⟩
  rw [c8Example_year_sum]
  decide

/-- Four one-record years for exercising the selection: sums 4, 2, 3, 1
for the years 2000, 2001, 2002, 2003. -/
def c8WitnessRows : List Row :=
  [⟨"Jogo 1", "Console 1", 2000, "GenreX", "Editora 1", 0, 0, 0, 0, 4⟩,
   ⟨"Jogo 2", "Console 1", 2001, "GenreY", "Editora 1", 0, 0, 0, 0, 2⟩,
   ⟨"Jogo 3", "Console 1", 2002, "GenreX", "Editora 1", 0, 0, 0, 0, 3⟩,
   ⟨"Jogo 4", "Console 1", 2003, "GenreX", "Editora 1", 0, 0, 0, 0, 1⟩]

/-- The year-trend view of the four-year dataset. -/
theorem c8Witness_year_sum :
    sales_by_year_sum c8WitnessRows = [(2000, 4), (2001, 2), (2002, 3), (2003, 1)] := by
  have hy : yearKeys c8WitnessRows = [2000, 2001, 2002, 2003] := by decide
  have hf0 : c8WitnessRows.filter (fun r => r.ano == 2000) =
      [⟨"Jogo 1", "Console 1", 2000, "GenreX", "Editora 1", 0, 0, 0, 0, 4⟩] := by decide
  have hf1 : c8WitnessRows.filter (fun r => r.ano == 2001) =
      [⟨"Jogo 2", "Console 1", 2001, "GenreY", "Editora 1", 0, 0, 0, 0, 2⟩] := by decide
  have hf2 : c8WitnessRows.filter (fun r => r.ano == 2002) =
      [⟨"Jogo 3", "Console 1", 2002, "GenreX", "Editora 1", 0, 0, 0, 0, 3⟩] := by decide
  have hf3 : c8WitnessRows.filter (fun r => r.ano == 2003) =
      [⟨"Jogo 4", "Console 1", 2003, "GenreX", "Editora 1", 0, 0, 0, 0, 1⟩] := by decide
  have h0 : totalYear c8WitnessRows 2000 = 4 := by
    simp [totalYear, hf0, sumSales]
  have h1 : totalYear c8WitnessRows 2001 = 2 := by
    simp [totalYear, hf1, sumSales]
  have h2 : totalYear c8WitnessRows 2002 = 3 := by
    simp [totalYear, hf2, sumSales]
  have h3 : totalYear c8WitnessRows 2003 = 1 := by
    simp [totalYear, hf3, sumSales]
  simp only [sales_by_year_sum, hy, List.map_cons, List.map_nil, h0, h1, h2, h3]

/-- Witness for claim C8: on the four-year dataset, the selected entry
(2000, 4) dominates the non-selected entry (2003, 1). -/
theorem c8_top_3_years_witness :
    ((2000 : Int), (4 : Rat)) ∈ top_3_years c8WitnessRows ∧
    ((2003 : Int), (1 : Rat)) ∈ (nlargestSplit 3 (sales_by_year_sum c8WitnessRows)).2 ∧
    ((2003 : Int), (1 : Rat)).2 ≤ ((2000 : Int), (4 : Rat)).2 := by
  have htop : top_3_years c8WitnessRows = [(2000, 4), (2002, 3), (2001, 2)] := by
    rw [top_3_years, c8Witness_year_sum]; decide
  have hrem : (nlargestSplit 3 (sales_by_year_sum c8WitnessRows)).2 = [(2003, 1)] := by
    rw [c8Witness_year_sum]; decide
  refine ⟨by rw [htop]; simp, by rw [hrem]; simp, ?_⟩
  exact (c8_top_3_years c8WitnessRows).2.2.1 ((2000 : Int), (4 : Rat))
    (by rw [htop]; simp) ((2003 : Int), (1 : Rat)) (by rw [hrem]; simp)

/-! ### Lemmas on the market-share view -/

/-- Filtering distributes over flatMap. -/
theorem filter_flatMap_eq {α β : Type} (l : List α) (f : α → List β) (p : β → Bool) :
    (l.flatMap f).filter p = l.flatMap fun a => (f a).filter p := by
  induction l with
  | nil => rfl
  | cons a t ih => simp only [List.flatMap_cons, List.filter_append, ih]

/-- A flatMap of year-indexed blocks in which only the block of an absent
year would survive collapses to the empty list. -/
theorem flatMap_if_eq_nil {β : Type} (g : Int → List β) (y : Int) :
    ∀ ys : List Int, y ∉ ys →
      (ys.flatMap fun x => if x = y then g x else []) = [] := by
  intro ys
  induction ys with
  | nil => intro _; rfl
  | cons a t ih =>
      intro hy
      have hay : ¬a = y := fun h => hy (h ▸ List.mem_cons_self a t)
      have hty : y ∉ t := fun h => hy (List.mem_cons_of_mem a h)
      simp only [List.flatMap_cons, if_neg hay, List.nil_append, ih hty]

/-- A flatMap of year-indexed blocks in which only the block of a present
year survives collapses to that single block (the year list being
duplicate-free). -/
theorem flatMap_if_eq_single {β : Type} (g : Int → List β) (y : Int) :
    ∀ ys : List Int, ys.Nodup → y ∈ ys →
      (ys.flatMap fun x => if x = y then g x else []) = g y := by
  intro ys
  induction ys with
  | nil => intro _ h; cases h
  | cons a t ih =>
      intro hnd hy
      by_cases hay : a = y
      · subst hay
        have hat : a ∉ t := (List.nodup_cons.mp hnd).1
        simp [List.flatMap_cons, flatMap_if_eq_nil g a t hat]
      · have hyt : y ∈ t := by
          rcases List.mem_cons.mp hy with h | h
          · exact absurd h.symm hay
          · exact h
        simp only [List.flatMap_cons, if_neg hay, List.nil_append,
          ih (List.nodup_cons.mp hnd).2 hyt]

/-- The year keys carry no duplicates. -/
theorem yearKeys_nodup (rows : List Row) : (yearKeys rows).Nodup :=
  ((List.perm_insertionSort _ _).nodup_iff).mpr (List.nodup_dedup _)

/-- Membership in the year keys is membership of the Ano column. -/
theorem mem_yearKeys {rows : List Row} {y : Int} :
    y ∈ yearKeys rows ↔ ∃ r ∈ rows, r.ano = y := by
  unfold yearKeys
  rw [(List.perm_insertionSort _ _).mem_iff, List.mem_dedup, List.mem_map]

/-- The entries of the market-share view belonging to one present year:
one entry per category of that year, the percentage being the float
division result of that category-year total by the year grand total. -/
theorem marketShare_year_block (key : Row → String) (rows : List Row) (y : Int)
    (hy : y ∈ yearKeys rows) :
    (df_market_share key rows).filter (fun e => e.1.2 == y) =
      (catsInYear key rows y).map fun c =>
        ((c, y), pctValue (catYearTotal key rows c y) (totalYear rows y)) := by
  unfold df_market_share sales_by_category_year
  rw [List.filter_map, filter_flatMap_eq]
  have hinner : ∀ y' : Int,
      (((catsInYear key rows y').map
          fun c => ((c, y'), catYearTotal key rows c y')).filter
        (((fun e : (String × Int) × DivResult => e.1.2 == y)) ∘
          fun e : (String × Int) × Rat =>
            (e.1, pctValue e.2 (totalYear rows e.1.2)))) =
      (if y' = y then
        (catsInYear key rows y').map fun c => ((c, y'), catYearTotal key rows c y')
       else []) := by
    intro y'
    rw [List.filter_map]
    have hcomp : (((fun e : (String × Int) × DivResult => e.1.2 == y) ∘
        fun e : (String × Int) × Rat =>
          (e.1, pctValue e.2 (totalYear rows e.1.2))) ∘
        fun c => ((c, y'), catYearTotal key rows c y')) =
        fun _ => (y' == y) := rfl
    rw [hcomp]
    by_cases h : y' = y
    · subst h
      simp
    · simp [h]
  simp only [hinner]
  rw [flatMap_if_eq_single _ y _ (yearKeys_nodup rows) hy, List.map_map]
  rfl

/-- For a year with nonzero grand total, the market-share percentages of
that year sum to exactly 100. -/
theorem marketShare_sum_eq_100 (key : Row → String) (rows : List Row) (y : Int)
    (ht : totalYear rows y ≠ 0) :
    (marketShareOfYear key rows y).sum = 100 := by
  have hy : y ∈ yearKeys rows := by
    by_contra hny
    apply ht
    have hfilter : rows.filter (fun r => r.ano == y) = [] := by
      rw [List.filter_eq_nil_iff]
      intro r hr hbeq
      exact hny (mem_yearKeys.mpr ⟨r, hr, by simpa using hbeq⟩)
    simp [totalYear, hfilter, sumSales]
  unfold marketShareOfYear
  rw [marketShare_year_block key rows y hy, List.map_map]
  have hpt : ((fun e : (String × Int) × DivResult => finiteOrZero e.2) ∘
      fun c => ((c, y), pctValue (catYearTotal key rows c y) (totalYear rows y))) =
      fun c => catYearTotal key rows c y * (100 / totalYear rows y) := by
    funext c
    simp only [Function.comp_apply, pctValue, if_neg ht, finiteOrZero]
    rw [div_mul_eq_mul_div, mul_div_assoc]
  rw [hpt, List.sum_map_mul_right]
  have hcat : ∀ c, catYearTotal key rows c y =
      sumSales ((rows.filter (fun r => r.ano == y)).filter (fun r => key r == c)) := by
    intro c
    unfold catYearTotal
    rw [List.filter_filter]
  have hpart : ((catsInYear key rows y).map fun c => catYearTotal key rows c y).sum
      = totalYear rows y := by
    calc ((catsInYear key rows y).map fun c => catYearTotal key rows c y).sum
        = ((catsInYear key rows y).map fun c =>
            sumSales ((rows.filter (fun r => r.ano == y)).filter
              (fun r => key r == c))).sum := by
          congr 1
          exact List.map_congr_left fun c _ => hcat c
      _ = sumSales (rows.filter (fun r => r.ano == y)) := by
          unfold catsInYear
          exact sum_over_groups key _ _ (List.nodup_dedup _)
            (fun r hr => List.mem_dedup.2 (List.mem_map_of_mem key hr))
      _ = totalYear rows y := rfl
  rw [hpart, mul_comm, div_mul_cancel₀ _ ht]

/-- A year with no records is entirely absent from the market-share
view. -/
theorem marketShare_year_empty (key : Row → String) (rows : List Row) (y : Int)
    (h : ∀ r ∈ rows, r.ano ≠ y) :
    marketShareOfYear key rows y = [] := by
  unfold marketShareOfYear
  have hfil : (df_market_share key rows).filter (fun e => e.1.2 == y) = [] := by
    rw [List.filter_eq_nil_iff]
    intro e he
    unfold df_market_share at he
    obtain ⟨e', he', rfl⟩ := List.mem_map.mp he
    unfold sales_by_category_year at he'
    obtain ⟨y', hy', he''⟩ := List.mem_flatMap.mp he'
    obtain ⟨c, hc, rfl⟩ := List.mem_map.mp he''
    obtain ⟨r, hr, hry⟩ := mem_yearKeys.mp hy'
    have hne : y' ≠ y := fun hyy => h r hr (by rw [hry, hyy])
    simpa using hne
  rw [hfil]
  rfl

/-- Claim C5, amended.  For every filtered dataset, every grouping column
and every year with nonzero grand total, the market-share percentages of
that year — over all categories present that year, before any display
truncation — sum to exactly 100; a year with no records is absent from
the market-share view; but a year whose records sum to a zero grand total
is not excluded: its entries appear with a non-finite percentage — NaN
exactly where the category-year total is itself zero (0.0 / 0.0), a
signed infinity where it is nonzero (see the counterexample). -/
theorem c5_market_share_amended (base : List Row) (fs : FilterState)
    (key : Row → String) (y : Int) :
    (totalYear (df_filtered fs base) y ≠ 0 →
      (marketShareOfYear key (df_filtered fs base) y).sum = 100) ∧
    ((∀ r ∈ df_filtered fs base, r.ano ≠ y) →
      marketShareOfYear key (df_filtered fs base) y = []) ∧
    (∀ e ∈ df_market_share key (df_filtered fs base),
      totalYear (df_filtered fs base) e.1.2 = 0 →
        (e.2 = DivResult.nan ∨ e.2 = DivResult.posInf ∨ e.2 = DivResult.negInf) ∧
        (e.2 = DivResult.nan ↔
          catYearTotal key (df_filtered fs base) e.1.1 e.1.2 = 0)) :=
  ⟨marketShare_sum_eq_100 key _ y, marketShare_year_empty key _ y, by
    intro e he h0
    unfold df_market_share at he
    obtain ⟨e', he', rfl⟩ := List.mem_map.mp he
    unfold sales_by_category_year at he'
    obtain ⟨y', hy', he''⟩ := List.mem_flatMap.mp he'
    obtain ⟨c, hc, rfl⟩ := List.mem_map.mp he''
    have h0' : totalYear (df_filtered fs base) y' = 0 := h0
    by_cases hv : catYearTotal key (df_filtered fs base) c y' = 0
    · simp [pctValue, h0', hv]
    · by_cases hp : 0 < catYearTotal key (df_filtered fs base) c y'
      · simp [pctValue, h0', hv, hp]
      · simp [pctValue, h0', hv, hp]⟩

/-- A concrete record of year 2000 whose global sales are zero. -/
def zeroRow : Row :=
  ⟨"Jogo Z", "Console Z", 2000, "Tiro", "Editora Z", 0, 0, 0, 0, 0⟩

/-- The all-pass filter state for the one-record dataset of zeroRow. -/
def zeroFs : FilterState :=
  ⟨(2000, 2000), ["Console Z"], ["Tiro"]⟩

/-- The market-share view of the zero-sales dataset: the year 2000 is
present, with a NaN percentage (0.0 / 0.0). -/
theorem zeroRow_market_share :
    df_market_share Row.genero [zeroRow] = [(("Tiro", 2000), DivResult.nan)] := by
  have hyk : yearKeys [zeroRow] = [2000] := by decide
  have hcats : catsInYear Row.genero [zeroRow] 2000 = ["Tiro"] := by decide
  have hfz : ([zeroRow].filter (fun r => r.ano == (2000:Int))) = [zeroRow] := by decide
  have hfc : ([zeroRow].filter
      (fun r => Row.genero r == "Tiro" && r.ano == (2000:Int))) = [zeroRow] := by decide
  have ht : totalYear [zeroRow] 2000 = 0 := by
    simp [totalYear, hfz, sumSales, zeroRow]
  have hcyt : catYearTotal Row.genero [zeroRow] "Tiro" 2000 = 0 := by
    simp [catYearTotal, hfc, sumSales, zeroRow]
  simp [df_market_share, sales_by_category_year, hyk, hcats, ht, hcyt, pctValue]

/-- Two records of year 2000 with global sales 1 and -1: their year has a
zero grand total with nonzero numerators, so the float division yields
the two signed infinities, not NaN.  (Negative sales survive
normalization, so such a dataset is reachable.) -/
def mixedRows : List Row :=
  [⟨"Jogo P", "Console P", 2000, "Tiro", "Editora P", 0, 0, 0, 0, 1⟩,
   ⟨"Jogo Q", "Console P", 2000, "Luta", "Editora P", 0, 0, 0, 0, -1⟩]

/-- The market-share view of the mixed-sign zero-total dataset: the year
2000 appears with +infinity for the positive category and -infinity for
the negative one. -/
theorem mixedRows_market_share :
    df_market_share Row.genero mixedRows =
      [(("Tiro", 2000), DivResult.posInf), (("Luta", 2000), DivResult.negInf)] := by
  have hyk : yearKeys mixedRows = [2000] := by decide
  have hcats : catsInYear Row.genero mixedRows 2000 = ["Tiro", "Luta"] := by decide
  have hfz : (mixedRows.filter (fun r => r.ano == (2000:Int))) = mixedRows := by decide
  have hfT : (mixedRows.filter
      (fun r => Row.genero r == "Tiro" && r.ano == (2000:Int))) =
      [⟨"Jogo P", "Console P", 2000, "Tiro", "Editora P", 0, 0, 0, 0, 1⟩] := by decide
  have hfL : (mixedRows.filter
      (fun r => Row.genero r == "Luta" && r.ano == (2000:Int))) =
      [⟨"Jogo Q", "Console P", 2000, "Luta", "Editora P", 0, 0, 0, 0, -1⟩] := by decide
  have ht : totalYear mixedRows 2000 = 0 := by
    simp only [totalYear, hfz, sumSales, mixedRows, List.map_cons, List.map_nil,
      List.sum_cons, List.sum_nil]
    norm_num
  have hcT : catYearTotal Row.genero mixedRows "Tiro" 2000 = 1 := by
    simp [catYearTotal, hfT, sumSales]
  have hcL : catYearTotal Row.genero mixedRows "Luta" 2000 = -1 := by
    simp [catYearTotal, hfL, sumSales]
  simp [df_market_share, sales_by_category_year, hyk, hcats, ht, hcT, hcL, pctValue]

/-- Counterexample for claim C5 as stated: on the filtered one-record
dataset whose only record (year 2000) has zero global sales, the year
2000 has zero grand total yet is not excluded from the market-share view
— it appears with a NaN percentage — and its percentages do not sum to
100. -/
theorem c5_counterexample :
    df_filtered zeroFs [zeroRow] = [zeroRow] ∧
    totalYear [zeroRow] 2000 = 0 ∧
    df_market_share Row.genero [zeroRow] = [(("Tiro", 2000), DivResult.nan)] ∧
    (marketShareOfYear Row.genero [zeroRow] 2000).sum ≠ 100 := by
  have hdf : df_filtered zeroFs [zeroRow] = [zeroRow] := by decide
  have hfz : ([zeroRow].filter (fun r => r.ano == (2000:Int))) = [zeroRow] := by decide
  have ht : totalYear [zeroRow] 2000 = 0 := by
    simp [totalYear, hfz, sumSales, zeroRow]
  refine ⟨hdf, ht, zeroRow_market_share, ?_⟩
  rw [marketShareOfYear, zeroRow_market_share]
  norm_num [finiteOrZero]

/-- A concrete record of year 2000 with global sales 4. -/
def msRow : Row :=
  ⟨"Jogo M", "Console M", 2000, "Tiro", "Editora M", 1, 1, 1, 1, 4⟩

/-- The all-pass filter state for the one-record dataset of msRow. -/
def msFs : FilterState :=
  ⟨(2000, 2000), ["Console M"], ["Tiro"]⟩

/-- Witness for claim C5: a year with nonzero total sums to 100, a year
with no records is excluded, and the zero-total entry is non-finite (here
NaN, its own category total being zero as well). -/
theorem c5_market_share_amended_witness :
    totalYear (df_filtered msFs [msRow]) 2000 ≠ 0 ∧
    (marketShareOfYear Row.genero (df_filtered msFs [msRow]) 2000).sum = 100 ∧
    (∀ r ∈ df_filtered msFs [msRow], r.ano ≠ (1990 : Int)) ∧
    marketShareOfYear Row.genero (df_filtered msFs [msRow]) 1990 = [] ∧
    (("Tiro", (2000 : Int)), DivResult.nan) ∈
      df_market_share Row.genero (df_filtered zeroFs [zeroRow]) ∧
    (((("Tiro", (2000 : Int)), DivResult.nan).2 = DivResult.nan ∨
      ((("Tiro", (2000 : Int)), DivResult.nan)).2 = DivResult.posInf ∨
      ((("Tiro", (2000 : Int)), DivResult.nan)).2 = DivResult.negInf) ∧
     (((("Tiro", (2000 : Int)), DivResult.nan)).2 = DivResult.nan ↔
      catYearTotal Row.genero (df_filtered zeroFs [zeroRow])
        ((("Tiro", (2000 : Int)), DivResult.nan)).1.1
        ((("Tiro", (2000 : Int)), DivResult.nan)).1.2 = 0)) := by
  have hdfm : df_filtered msFs [msRow] = [msRow] := by decide
  have hfm : ([msRow].filter (fun r => r.ano == (2000:Int))) = [msRow] := by decide
  have htm : totalYear (df_filtered msFs [msRow]) 2000 ≠ 0 := by
    rw [hdfm]
    simp [totalYear, hfm, sumSales, msRow]
  have hdfz : df_filtered zeroFs [zeroRow] = [zeroRow] := by decide
  have hmem : (("Tiro", (2000 : Int)), DivResult.nan) ∈
      df_market_share Row.genero (df_filtered zeroFs [zeroRow]) := by
    rw [hdfz, zeroRow_market_share]
    simp
  have htz : totalYear (df_filtered zeroFs [zeroRow])
      ((("Tiro", (2000 : Int)), DivResult.nan)).1.2 = 0 := by
    rw [hdfz]
    have hfz : ([zeroRow].filter (fun r => r.ano == (2000:Int))) = [zeroRow] := by decide
    simp [totalYear, hfz, sumSales, zeroRow]
  exact ⟨htm,
    (c5_market_share_amended [msRow] msFs Row.genero 2000).1 htm,
    by decide,
    (c5_market_share_amended [msRow] msFs Row.genero 1990).2.1 (by decide),
    hmem,
    (c5_market_share_amended [zeroRow] zeroFs Row.genero 2000).2.2 _ hmem htz⟩

end Projeto
